import Mathlib

/-
  Verification of the segment-extraction core of PyCodeDocGen.py.

  The embedding models:
  - `generate_detailed_explanation` (lines 24-52 of the source): one call to the
    OpenAI collaborator, with the exception path replaced by an `Except`-valued
    collaborator function (`Explainer`).
  - `extract_script_info` (lines 54-121): parse result, `ast.walk` traversal
    (CPython's `ast.walk` is a FIFO-queue breadth-first traversal: it pops a
    node from the left of a deque and appends its children to the right),
    the `code_lines` line universe, and the loose-line reconciliation.

  The Python `set` of small non-negative integers `code_lines` is modelled as a
  strictly ascending `List Nat`: it starts as `set(range(len(lines)))`, only
  ever shrinks via `discard`, and CPython iterates such a set in ascending
  order (each integer below the table size occupies its own slot).

  Python line numbers (`node.lineno`, `node.end_lineno`) are 1-based, exactly
  as the `ast` module reports them; the code subtracts 1 where the source does.
-/

/-- The explanation collaborator: the OpenAI chat-completion call, abstracted
as a function from the code snippet to either a response text or an error
description (the text of the raised exception). -/
abbrev Explainer := String → Except String String

/-- Characters removed by Python `str.strip()` with no argument: whitespace. -/
def pySpace (c : Char) : Bool := c.isWhitespace

/-- Python `str.strip()`: drop leading and trailing whitespace. Defined by
structural recursion over the character list of the string. -/
def pyStrip (s : String) : String :=
  ⟨(((s.data.dropWhile pySpace).reverse.dropWhile pySpace).reverse)⟩

/-- Model of `generate_detailed_explanation` (source lines 24-52): on success
the response content is stripped; on any exception the placeholder string
embedding the error text is returned. -/
def generate_detailed_explanation (client : Explainer) (code_snippet : String) : String :=
  match client code_snippet with
  | Except.ok content => pyStrip content
  | Except.error e => "Unable to generate explanation. Error: " ++ e

/-- Syntax-tree nodes, covering the node kinds `extract_script_info`
distinguishes. `stmt` stands for every other statement kind (If, For, Try,
Expr, ...), carrying the child statements `ast.iter_child_nodes` would yield;
`asyncFunctionDef` is separate because `isinstance(node, ast.FunctionDef)` is
false for `ast.AsyncFunctionDef`. Line numbers are the 1-based `lineno` and
`end_lineno` attributes of the `ast` node. -/
inductive Node where
  | module (body : List Node)
  | importNode (lineno : Nat) (names : List String)
  | importFrom (lineno : Nat) (moduleName : Option String)
  | functionDef (nm : String) (args : List String) (lineno : Nat) (endLineno : Nat) (body : List Node)
  | asyncFunctionDef (nm : String) (args : List String) (lineno : Nat) (endLineno : Nat) (body : List Node)
  | classDef (nm : String) (lineno : Nat) (endLineno : Nat) (body : List Node)
  | stmt (lineno : Nat) (subs : List Node)
deriving Repr

/-- The child nodes `ast.iter_child_nodes` yields that can contain or be one
of the extracted node kinds: the statement body. (Expression children such as
`arguments`, decorators or base classes cannot contain statement nodes and
yield nothing relevant to the traversal output.) -/
def Node.children : Node → List Node
  | .module body => body
  | .importNode _ _ => []
  | .importFrom _ _ => []
  | .functionDef _ _ _ _ body => body
  | .asyncFunctionDef _ _ _ _ body => body
  | .classDef _ _ _ body => body
  | .stmt _ subs => subs

theorem sum_map_sizeOf_lt (l : List Node) : (l.map sizeOf).sum < sizeOf l := by
  induction l with
  | nil => simp
  | cons a as ih =>
      simp only [List.map_cons, List.sum_cons, List.cons.sizeOf_spec]
      omega

theorem children_sizeOf_lt (n : Node) : ((n.children.map sizeOf).sum) < sizeOf n := by
  cases n <;> simp only [Node.children, Node.module.sizeOf_spec,
    Node.importNode.sizeOf_spec, Node.importFrom.sizeOf_spec,
    Node.functionDef.sizeOf_spec, Node.asyncFunctionDef.sizeOf_spec,
    Node.classDef.sizeOf_spec, Node.stmt.sizeOf_spec,
    List.map_nil, List.sum_nil] <;>
  first
  | omega
  | (rename_i body; have h := sum_map_sizeOf_lt body; omega)

/-- Model of CPython's `ast.walk`: a FIFO queue, initially holding the root;
repeatedly pop the front node, emit it, and append its children to the back.
This is a breadth-first (level-order) traversal. -/
def walkAux : List Node → List Node
  | [] => []
  | n :: rest => n :: walkAux (rest ++ n.children)
termination_by l => (l.map sizeOf).sum
decreasing_by
  simp only [List.map_append, List.sum_append, List.map_cons, List.sum_cons]
  have h := children_sizeOf_lt n
  omega

/-- `ast.walk(tree)` applied from the root. -/
def walk (root : Node) : List Node := walkAux [root]

/-- A `func_info` dictionary (source lines 92-97). -/
structure FuncInfo where
  nm : String
  params : List String
  code : String
  explanation : String
deriving Repr, DecidableEq

/-- A `class_info` dictionary (source lines 104-109). -/
structure ClassInfo where
  nm : String
  methods : List String
  code : String
  explanation : String
deriving Repr, DecidableEq

/-- An `other_code` entry (source lines 116-119). -/
structure LooseInfo where
  code : String
  explanation : String
deriving Repr, DecidableEq

/-- The mutable locals of the traversal loop of `extract_script_info`:
`imports`, `functions`, `classes` and the `code_lines` line universe.
`imports` holds `Option String` because `ast.ImportFrom.module` is `None` for
a relative import (`imports.append(node.module)` appends it as is); an
`ast.Import` alias name is always present and recorded as `some`. -/
structure ExtractSt where
  imports : List (Option String)
  functions : List FuncInfo
  classes : List ClassInfo
  codeLines : List Nat
deriving Repr

/-- Python list slice `l[a:b]` for 0 ≤ a, b. -/
def pySlice {α : Type} (l : List α) (a b : Nat) : List α := (l.drop a).take (b - a)

/-- Python `set.discard` on the ascending-list model of the line set. -/
def pyDiscard (l : List Nat) (v : Nat) : List Nat := l.filter (fun i => i ≠ v)

/-- One iteration of the `for node in ast.walk(tree)` loop (source lines
82-111): the `isinstance` dispatch on the current node. -/
def processNode (client : Explainer) (lines : List String) (st : ExtractSt) (node : Node) :
    ExtractSt :=
  match node with
  | .importNode lineno names =>
      ⟨st.imports ++ names.map some, st.functions, st.classes,
       pyDiscard st.codeLines (lineno - 1)⟩
  | .importFrom lineno moduleName =>
      ⟨st.imports ++ [moduleName], st.functions, st.classes,
       pyDiscard st.codeLines (lineno - 1)⟩
  | .functionDef nm args lineno endLineno _ =>
      let func_code := String.join (pySlice lines (lineno - 1) endLineno)
      ⟨st.imports,
       st.functions ++ [⟨nm, args, func_code, generate_detailed_explanation client func_code⟩],
       st.classes, pyDiscard st.codeLines (lineno - 1)⟩
  | .classDef nm lineno endLineno body =>
      let class_code := String.join (pySlice lines (lineno - 1) endLineno)
      let methods := body.filterMap (fun n =>
        match n with
        | .functionDef m _ _ _ _ => some m
        | _ => none)
      ⟨st.imports, st.functions,
       st.classes ++ [⟨nm, methods, class_code, generate_detailed_explanation client class_code⟩],
       pyDiscard st.codeLines (lineno - 1)⟩
  | _ => st

/-- The initial traversal state: empty collections and
`code_lines = set(range(len(lines)))` (source lines 72-79). The source file
is represented by `lines`, the result of `script_content.split(chr(10))`:
that split is a bijection between the raw text and its list of physical
lines, so the line list stands for the content itself. -/
def initialSt (lines : List String) : ExtractSt :=
  ⟨[], [], [], List.range lines.length⟩

/-- The traversal state after the `ast.walk` loop completes. -/
def finalSt (client : Explainer) (lines : List String) (tree : Node) : ExtractSt :=
  (walk tree).foldl (processNode client lines) (initialSt lines)

/-- Reconciliation of the leftover line universe (source lines 113-119):
strip each remaining line, drop the ones that strip to empty, and wrap each
survivor with its explanation. -/
def looseOf (client : Explainer) (lines : List String) (codeLines : List Nat) :
    List LooseInfo :=
  let other_code_lines := codeLines.filterMap (fun i =>
    let t := pyStrip (lines.getD i "")
    if t = "" then none else some t)
  other_code_lines.map (fun s => ⟨s, generate_detailed_explanation client s⟩)

/-- Model of `extract_script_info` (source lines 54-121). The file read and
`ast.parse` are collaborators: the input is their combined result, either the
script content (as its list of physical lines) together with its syntax tree,
or the exception text. On the exception path the function returns four empty
collections. -/
def extract_script_info (client : Explainer)
    (parsed : Except String (List String × Node)) :
    List (Option String) × List FuncInfo × List ClassInfo × List LooseInfo :=
  match parsed with
  | Except.error _ => ([], [], [], [])
  | Except.ok (lines, tree) =>
      let st := finalSt client lines tree
      (st.imports, st.functions, st.classes, looseOf client lines st.codeLines)

/-- The entries one visited node contributes to `imports`. -/
def importEntries : Node → List (Option String)
  | .importNode _ names => names.map some
  | .importFrom _ moduleName => [moduleName]
  | _ => []

/-- The `func_info` one visited node contributes to `functions`, if any. -/
def funcInfoOf (client : Explainer) (lines : List String) : Node → Option FuncInfo
  | .functionDef nm args lineno endLineno _ =>
      let func_code := String.join (pySlice lines (lineno - 1) endLineno)
      some ⟨nm, args, func_code, generate_detailed_explanation client func_code⟩
  | _ => none

/-- The `class_info` one visited node contributes to `classes`, if any. -/
def classInfoOf (client : Explainer) (lines : List String) : Node → Option ClassInfo
  | .classDef nm lineno endLineno body =>
      let class_code := String.join (pySlice lines (lineno - 1) endLineno)
      let methods := body.filterMap (fun n =>
        match n with
        | .functionDef m _ _ _ _ => some m
        | _ => none)
      some ⟨nm, methods, class_code, generate_detailed_explanation client class_code⟩
  | _ => none

/-- The line indices one visited node discards from the line universe. -/
def claimOf : Node → List Nat
  | .importNode lineno _ => [lineno - 1]
  | .importFrom lineno _ => [lineno - 1]
  | .functionDef _ _ lineno _ _ => [lineno - 1]
  | .classDef _ lineno _ _ => [lineno - 1]
  | _ => []

/-- All line indices claimed over the whole traversal of a tree. -/
def claimedLines (tree : Node) : List Nat := (walk tree).flatMap claimOf

/-- Removal of every member of `vs` from the line-universe list. -/
def removeAll (l : List Nat) (vs : List Nat) : List Nat := l.filter (fun i => i ∉ vs)

theorem removeAll_nil (l : List Nat) : removeAll l [] = l := by
  simp [removeAll]

theorem removeAll_removeAll (l a b : List Nat) :
    removeAll (removeAll l a) b = removeAll l (a ++ b) := by
  simp only [removeAll, List.filter_filter]
  apply List.filter_congr
  intro x _
  simp only [List.mem_append, decide_not]
  cases hx : decide (x ∈ a) <;> cases hy : decide (x ∈ b) <;>
    simp_all

theorem processNode_eq (client : Explainer) (lines : List String)
    (st : ExtractSt) (node : Node) :
    processNode client lines st node =
      ⟨st.imports ++ importEntries node,
       st.functions ++ (funcInfoOf client lines node).toList,
       st.classes ++ (classInfoOf client lines node).toList,
       removeAll st.codeLines (claimOf node)⟩ := by
  cases node <;>
    simp [processNode, importEntries, funcInfoOf, classInfoOf, claimOf,
      pyDiscard, removeAll, List.mem_singleton]

theorem filterMap_cons_toList {α β : Type} (f : α → Option β) (a : α) (l : List α) :
    List.filterMap f (a :: l) = (f a).toList ++ List.filterMap f l := by
  cases h : f a <;> simp [List.filterMap_cons, h]

/-- Complete characterization of the traversal loop as a fold: each collection
is the concatenation of the per-node contributions in walk order, and the line
universe loses exactly the claimed indices. -/
theorem foldl_processNode (client : Explainer) (lines : List String)
    (ns : List Node) (st : ExtractSt) :
    ns.foldl (processNode client lines) st =
      ⟨st.imports ++ ns.flatMap importEntries,
       st.functions ++ ns.filterMap (funcInfoOf client lines),
       st.classes ++ ns.filterMap (classInfoOf client lines),
       removeAll st.codeLines (ns.flatMap claimOf)⟩ := by
  induction ns generalizing st with
  | nil => simp [removeAll_nil]
  | cons n rest ih =>
      rw [List.foldl_cons, processNode_eq, ih]
      simp only [List.flatMap_cons, filterMap_cons_toList, removeAll_removeAll,
        List.append_assoc]

/-- The state after the whole loop, in closed form. -/
theorem finalSt_eq (client : Explainer) (lines : List String) (tree : Node) :
    finalSt client lines tree =
      ⟨(walk tree).flatMap importEntries,
       (walk tree).filterMap (funcInfoOf client lines),
       (walk tree).filterMap (classInfoOf client lines),
       removeAll (List.range lines.length) (claimedLines tree)⟩ := by
  rw [finalSt, foldl_processNode, claimedLines]
  simp [initialSt]

/-- The loose collection in closed form: the remaining line indices that do
not strip to empty, each mapped to its stripped text and its explanation. -/
theorem looseOf_eq (client : Explainer) (lines : List String) (codeLines : List Nat) :
    looseOf client lines codeLines =
      (codeLines.filter (fun i => pyStrip (lines.getD i "") ≠ "")).map
        (fun i => ⟨pyStrip (lines.getD i ""),
          generate_detailed_explanation client (pyStrip (lines.getD i ""))⟩) := by
  have key : ∀ (g : Nat → String) (wrap : String → LooseInfo) (l : List Nat),
      (l.filterMap (fun i => if g i = "" then none else some (g i))).map wrap =
        (l.filter (fun i => g i ≠ "")).map (fun i => wrap (g i)) := by
    intro g wrap l
    induction l with
    | nil => rfl
    | cons i rest ih =>
        by_cases h : g i = "" <;>
          simp [List.filterMap_cons, List.filter_cons, h, ih]
  have h := key (fun i => pyStrip (lines.getD i ""))
    (fun s => (⟨s, generate_detailed_explanation client s⟩ : LooseInfo)) codeLines
  simpa [looseOf] using h

/-- The physical lines `s` through `e` (1-based, inclusive) of the file, as
the spec words the promised code text of a definition spanning `[s, e]`.
Stated from the spec for comparison with the slice the code takes. -/
def specLinesThrough (lines : List String) (s e : Nat) : List String :=
  (List.range' s (e + 1 - s)).map (fun i => lines.getD (i - 1) "")

/-- The Python slice `lines[s-1:e]` is exactly the physical lines `s..e`. -/
theorem pySlice_eq_specLinesThrough (lines : List String) (s e : Nat)
    (h1 : 1 ≤ s) (h2 : s ≤ e) (h3 : e ≤ lines.length) :
    pySlice lines (s - 1) e = specLinesThrough lines s e := by
  apply List.ext_getElem
  · simp only [pySlice, specLinesThrough, List.length_take, List.length_drop,
      List.length_map, List.length_range']
    omega
  · intro i hi1 hi2
    have hlen : i < (List.drop (s - 1) lines).length := by
      simp only [pySlice, List.length_take] at hi1
      omega
    have hidx : s - 1 + i < lines.length := by
      simp only [List.length_drop] at hlen
      omega
    have hidx2 : s + i - 1 < lines.length := by omega
    simp only [pySlice, specLinesThrough, List.getElem_take, List.getElem_drop,
      List.getElem_map, List.getElem_range', Nat.one_mul]
    rw [List.getD_eq_getElem lines "" hidx2]
    have harith : s - 1 + i = s + i - 1 := by omega
    simp only [harith]

/-- The FIFO traversal splits as the current queue followed by the traversal
of the concatenation of all its children: `ast.walk` is level-order. -/
theorem walkAux_append (l1 l2 : List Node) :
    walkAux (l1 ++ l2) = l1 ++ walkAux (l2 ++ l1.flatMap Node.children) := by
  induction l1 generalizing l2 with
  | nil => simp
  | cons n rest ih =>
      rw [List.cons_append, walkAux, List.append_assoc, ih]
      simp [List.append_assoc]

/-- Level-order form of the breadth-first walk: a whole queue level is
emitted before any node of the next level. -/
theorem walkAux_levels (l : List Node) :
    walkAux l = l ++ walkAux (l.flatMap Node.children) := by
  have h := walkAux_append l []
  simpa using h

theorem mem_sizeOf_le_sum {c : Node} {l : List Node} (h : c ∈ l) :
    sizeOf c ≤ (l.map sizeOf).sum := by
  induction l with
  | nil => cases h
  | cons a as ih =>
      rcases List.mem_cons.mp h with rfl | hmem
      · simp
      · have := ih hmem
        simp only [List.map_cons, List.sum_cons]
        omega

theorem mem_children_sizeOf_lt {c n : Node} (h : c ∈ n.children) :
    sizeOf c < sizeOf n := by
  have h1 := mem_sizeOf_le_sum h
  have h2 := children_sizeOf_lt n
  omega

/-- A depth-first pre-order traversal: the node, then the full subtree of each
child in turn. This is the order the spec asserts for the walk; stated from
the spec for comparison with the breadth-first `walk` of the code. -/
def preorderWalk (n : Node) : List Node :=
  n :: (n.children.attach.map (fun c => preorderWalk c.val)).flatten
termination_by sizeOf n
decreasing_by
  have := mem_children_sizeOf_lt c.property
  omega

/-- Sanity check: the walk emits the root module first, then its body. -/
theorem walk_two_node_sanity : walk (Node.module [Node.importNode 1 ["a"], Node.stmt 2 []]) =
    [Node.module [Node.importNode 1 ["a"], Node.stmt 2 []],
     Node.importNode 1 ["a"], Node.stmt 2 []] := by
  simp [walk, walkAux, Node.children]

theorem preorderWalk_eq (n : Node) :
    preorderWalk n = n :: (n.children.map preorderWalk).flatten := by
  rw [preorderWalk]
  congr 1
  congr 1
  exact List.attach_map_val n.children preorderWalk

/-- The name of a function-definition node, if the node is one. -/
def defName : Node → Option String
  | .functionDef nm _ _ _ _ => some nm
  | _ => none

/-- True of the two kinds of import statement node. -/
def isImportStmt : Node → Bool
  | .importNode _ _ => true
  | .importFrom _ _ => true
  | _ => false

/-- Claim C7: for every input whose text is not valid for the grammar (the
parse collaborator returns an error), extraction returns four empty
collections and no exception escapes: `extract_script_info` is a total
function whose error branch is exactly `([], [], [], [])`. -/
theorem claim7_parse_failure_yields_four_empty (client : Explainer) (e : String) :
    extract_script_info client (Except.error e) = ([], [], [], []) := rfl

/-- Claim C2: processing a function-definition or class-definition node
removes exactly the node's start line index from the line universe: the new
universe is the old one with `lineno - 1` filtered out, so a line index
survives the node if and only if it was present and is not the start index;
in particular every other index of the node's `[start, end]` range is left. -/
theorem claim2_defs_claim_start_line_only (client : Explainer) (lines : List String)
    (st : ExtractSt) (nm : String) (args : List String) (s e : Nat) (body : List Node) :
    ((processNode client lines st (Node.functionDef nm args s e body)).codeLines
        = st.codeLines.filter (fun i => i ≠ s - 1)
      ∧ ∀ j, j ∈ (processNode client lines st (Node.functionDef nm args s e body)).codeLines ↔
          j ∈ st.codeLines ∧ j ≠ s - 1)
    ∧ ((processNode client lines st (Node.classDef nm s e body)).codeLines
        = st.codeLines.filter (fun i => i ≠ s - 1)
      ∧ ∀ j, j ∈ (processNode client lines st (Node.classDef nm s e body)).codeLines ↔
          j ∈ st.codeLines ∧ j ≠ s - 1) := by
  refine ⟨⟨rfl, fun j => ?_⟩, ⟨rfl, fun j => ?_⟩⟩ <;>
    simp [processNode, pyDiscard, List.mem_filter]

/-- Claim C5: a function-definition node whose tree-reported span is the
1-based lines `[s, e]` yields a Function segment whose code text is the
concatenation, with no separator, of the physical lines `s` through `e` of
the file. -/
theorem claim5_function_code_is_verbatim_span (client : Explainer) (lines : List String)
    (st : ExtractSt) (nm : String) (args : List String) (s e : Nat) (body : List Node)
    (h1 : 1 ≤ s) (h2 : s ≤ e) (h3 : e ≤ lines.length) :
    (processNode client lines st (Node.functionDef nm args s e body)).functions =
      st.functions ++
        [⟨nm, args, String.join (specLinesThrough lines s e),
          generate_detailed_explanation client (String.join (specLinesThrough lines s e))⟩] := by
  simp [processNode, pySlice_eq_specLinesThrough lines s e h1 h2 h3]

/-- Witness for C5 at a concrete two-line function inside a three-line file:
the segment's code is the two physical lines of the span run together. -/
theorem claim5_witness :
    (1 ≤ 1 ∧ 1 ≤ 2 ∧ 2 ≤ (["def g(x):", "    return x", "z = 1"] : List String).length) ∧
    (processNode (fun _ => Except.error "E") ["def g(x):", "    return x", "z = 1"]
        ⟨[], [], [], [0, 1, 2]⟩ (Node.functionDef "g" ["x"] 1 2 [])).functions =
      [] ++
        [⟨"g", ["x"],
          String.join (specLinesThrough ["def g(x):", "    return x", "z = 1"] 1 2),
          generate_detailed_explanation (fun _ => Except.error "E")
            (String.join (specLinesThrough ["def g(x):", "    return x", "z = 1"] 1 2))⟩] :=
  ⟨⟨by decide, by decide, by decide⟩,
    claim5_function_code_is_verbatim_span (fun _ => Except.error "E")
      ["def g(x):", "    return x", "z = 1"] ⟨[], [], [], [0, 1, 2]⟩ "g" ["x"] 1 2 []
      (by decide) (by decide) (by decide)⟩

/-- Sanity check: the spec-worded span of lines 1..2 joins with no separator. -/
theorem specLinesThrough_join_sanity :
    String.join (specLinesThrough ["def g(x):", "    return x", "z = 1"] 1 2) =
      "def g(x):    return x" := by decide

/-- Claim C3 counterexample: the file `import a, b` has exactly one top-level
statement of import kind, yet the imports collection records two entries (one per
alias), so k import statements do not yield exactly k entries. -/
theorem claim3_counterexample :
    ((Node.module [Node.importNode 1 ["a", "b"]]).children.countP isImportStmt = 1)
    ∧ ((extract_script_info (fun _ => Except.error "E")
          (Except.ok (["import a, b"], Node.module [Node.importNode 1 ["a", "b"]]))).1
        = [some "a", some "b"])
    ∧ ((extract_script_info (fun _ => Except.error "E")
          (Except.ok (["import a, b"], Node.module [Node.importNode 1 ["a", "b"]]))).1.length
        ≠ 1) := by
  refine ⟨by decide, ?_, ?_⟩ <;>
    · simp only [extract_script_info, finalSt_eq, claimedLines, walk, walkAux, Node.children,
        List.append_nil, List.nil_append, List.cons_append, List.singleton_append]
      decide

/-- Claim C3 amended: the imports collection is the concatenation, in
tree-walk order over the whole tree (nested imports included), of the
per-statement entries: one entry per alias of a plain import, and one entry
(the possibly absent module name) per from-import. The count therefore
matches the total number of aliases and from-imports visited, not the number
of top-level import statements. -/
theorem claim3_amended_imports_walk_order (client : Explainer) (lines : List String)
    (tree : Node) :
    (extract_script_info client (Except.ok (lines, tree))).1 =
      (walk tree).flatMap importEntries := by
  simp [extract_script_info, finalSt_eq]

/-- Claim C4 counterexample: with `g` nested inside `f` and `h` top-level
after `f`, the extracted function segments come out `[f, h, g]` — the
breadth-first walk order — while a pre-order traversal (and source order)
gives `[f, g, h]`; so the walk is not pre-order and source order within the
functions category is not preserved. -/
theorem claim4_counterexample :
    ((extract_script_info (fun _ => Except.error "E")
        (Except.ok (["def f():", "    def g():", "        pass", "def h():", "    pass"],
          Node.module
            [Node.functionDef "f" [] 1 3 [Node.functionDef "g" [] 2 3 [Node.stmt 3 []]],
             Node.functionDef "h" [] 4 5 [Node.stmt 5 []]]))).2.1.map FuncInfo.nm
      = ["f", "h", "g"])
    ∧ ((preorderWalk
          (Node.module
            [Node.functionDef "f" [] 1 3 [Node.functionDef "g" [] 2 3 [Node.stmt 3 []]],
             Node.functionDef "h" [] 4 5 [Node.stmt 5 []]])).filterMap defName
        = ["f", "g", "h"])
    ∧ (["f", "h", "g"] ≠ (["f", "g", "h"] : List String)) := by
  refine ⟨?_, ?_, by decide⟩
  · simp only [extract_script_info, finalSt_eq, claimedLines, walk, walkAux, Node.children,
      List.append_nil, List.nil_append, List.cons_append, List.singleton_append]
    decide
  · simp only [preorderWalk_eq, Node.children, List.map_cons, List.map_nil,
      List.flatten_cons, List.flatten_nil]
    decide

/-- Claim C4 amended: segments of each kind are appended in tree-walk order,
where the walk is the breadth-first level-order traversal of `ast.walk` (each
queue level in full, left to right, before any node of the next level); a
class is still visited before its methods, but a nested definition appears
after every shallower definition of its category regardless of source
position. -/
theorem claim4_amended_segments_in_bfs_walk_order (client : Explainer)
    (lines : List String) (tree : Node) :
    ((extract_script_info client (Except.ok (lines, tree))).1 =
        (walk tree).flatMap importEntries)
    ∧ ((extract_script_info client (Except.ok (lines, tree))).2.1 =
        (walk tree).filterMap (funcInfoOf client lines))
    ∧ ((extract_script_info client (Except.ok (lines, tree))).2.2.1 =
        (walk tree).filterMap (classInfoOf client lines))
    ∧ (∀ queue : List Node, walkAux queue = queue ++ walkAux (queue.flatMap Node.children)) := by
  refine ⟨?_, ?_, ?_, walkAux_levels⟩ <;> simp [extract_script_info, finalSt_eq]

/-- Claim C6: for a class whose directly declared methods are exactly `a` and
`b` (a third function `c`, defined inside a conditional statement in the
class body, is not a direct child), the Class segment's method list is
`[a, b]` in declaration order, and Function segments named `a` and `b` also
appear in the functions collection without deduplication (followed by the
nested `c`, which the full-tree walk also reaches). -/
theorem claim6_class_methods_and_double_extraction (client : Explainer)
    (lines : List String) (cn a b c : String) (pa pb pc : List String)
    (lc ec la ea lb eb lcc ecc sa sb sc sc2 : Nat) :
    ((extract_script_info client (Except.ok (lines,
        Node.module [Node.classDef cn lc ec
          [Node.functionDef a pa la ea [Node.stmt sa []],
           Node.stmt sc [Node.functionDef c pc lcc ecc [Node.stmt sc2 []]],
           Node.functionDef b pb lb eb [Node.stmt sb []]]]))).2.2.1.map ClassInfo.methods
      = [[a, b]])
    ∧ ((extract_script_info client (Except.ok (lines,
        Node.module [Node.classDef cn lc ec
          [Node.functionDef a pa la ea [Node.stmt sa []],
           Node.stmt sc [Node.functionDef c pc lcc ecc [Node.stmt sc2 []]],
           Node.functionDef b pb lb eb [Node.stmt sb []]]]))).2.1.map FuncInfo.nm
      = [a, b, c]) := by
  constructor <;>
    simp [extract_script_info, finalSt_eq, walk, walkAux, Node.children,
      funcInfoOf, classInfoOf]

/-- Claim C1: for a parse tree whose claimed lines are in-range, non-blank
lines of the file (true of every real parse, where each claimed line starts
an import, def or class statement), every line index of the file falls in
exactly one of: the claimed set (removed from the line universe), the loose
set (remaining and not stripping to empty), or the blank set (stripping to
empty); end lines of multi-line definitions are never claimed (claim C2) and
so fall into the loose or blank set, the documented exception. -/
theorem claim1_line_partition (client : Explainer) (lines : List String) (tree : Node)
    (hclaims : ∀ j ∈ claimedLines tree, pyStrip (lines.getD j "") ≠ "") :
    ∀ i, i < lines.length →
      ((i ∉ (finalSt client lines tree).codeLines
        ∨ (i ∈ (finalSt client lines tree).codeLines ∧ pyStrip (lines.getD i "") ≠ "")
        ∨ pyStrip (lines.getD i "") = "")
      ∧ ¬(i ∉ (finalSt client lines tree).codeLines
          ∧ (i ∈ (finalSt client lines tree).codeLines ∧ pyStrip (lines.getD i "") ≠ ""))
      ∧ ¬(i ∉ (finalSt client lines tree).codeLines ∧ pyStrip (lines.getD i "") = "")
      ∧ ¬((i ∈ (finalSt client lines tree).codeLines ∧ pyStrip (lines.getD i "") ≠ "")
          ∧ pyStrip (lines.getD i "") = "")) := by
  intro i hi
  by_cases hmem : i ∈ (finalSt client lines tree).codeLines
  · by_cases hb : pyStrip (lines.getD i "") = ""
    · exact ⟨Or.inr (Or.inr hb), fun h => h.1 hmem, fun h => h.1 hmem, fun h => h.1.2 hb⟩
    · exact ⟨Or.inr (Or.inl ⟨hmem, hb⟩), fun h => h.1 hmem, fun h => h.1 hmem,
        fun h => h.1.2 h.2⟩
  · have hcl : i ∈ claimedLines tree := by
      rw [finalSt_eq] at hmem
      simp only [removeAll, List.mem_filter, List.mem_range, decide_not,
        Bool.not_eq_true', decide_eq_false_iff_not, not_and, not_not] at hmem
      exact hmem hi
    have hnb := hclaims i hcl
    exact ⟨Or.inl hmem, fun h => hmem h.2.1, fun h => hnb h.2, fun h => h.1.2 h.2⟩

/-- Witness for C1 on the four-line file `import a / blank / def f(): /
return 1`: the hypothesis holds (lines 0 and 2 are claimed and non-blank) and
line index 3 is classified in exactly one way (loose). -/
theorem claim1_witness :
    (∀ j ∈ claimedLines (Node.module [Node.importNode 1 ["a"],
        Node.functionDef "f" [] 3 4 [Node.stmt 4 []]]),
      pyStrip ((["import a", "", "def f():", "    return 1"] : List String).getD j "") ≠ "")
    ∧ (3 < (["import a", "", "def f():", "    return 1"] : List String).length
    ∧ ((3 ∉ (finalSt (fun _ => Except.error "E") ["import a", "", "def f():", "    return 1"]
            (Node.module [Node.importNode 1 ["a"],
              Node.functionDef "f" [] 3 4 [Node.stmt 4 []]])).codeLines
        ∨ (3 ∈ (finalSt (fun _ => Except.error "E") ["import a", "", "def f():", "    return 1"]
            (Node.module [Node.importNode 1 ["a"],
              Node.functionDef "f" [] 3 4 [Node.stmt 4 []]])).codeLines
          ∧ pyStrip ((["import a", "", "def f():", "    return 1"] : List String).getD 3 "") ≠ "")
        ∨ pyStrip ((["import a", "", "def f():", "    return 1"] : List String).getD 3 "") = "")
      ∧ ¬(3 ∉ (finalSt (fun _ => Except.error "E") ["import a", "", "def f():", "    return 1"]
            (Node.module [Node.importNode 1 ["a"],
              Node.functionDef "f" [] 3 4 [Node.stmt 4 []]])).codeLines
          ∧ (3 ∈ (finalSt (fun _ => Except.error "E") ["import a", "", "def f():", "    return 1"]
            (Node.module [Node.importNode 1 ["a"],
              Node.functionDef "f" [] 3 4 [Node.stmt 4 []]])).codeLines
            ∧ pyStrip ((["import a", "", "def f():", "    return 1"] : List String).getD 3 "") ≠ ""))
      ∧ ¬(3 ∉ (finalSt (fun _ => Except.error "E") ["import a", "", "def f():", "    return 1"]
            (Node.module [Node.importNode 1 ["a"],
              Node.functionDef "f" [] 3 4 [Node.stmt 4 []]])).codeLines
          ∧ pyStrip ((["import a", "", "def f():", "    return 1"] : List String).getD 3 "") = "")
      ∧ ¬((3 ∈ (finalSt (fun _ => Except.error "E") ["import a", "", "def f():", "    return 1"]
            (Node.module [Node.importNode 1 ["a"],
              Node.functionDef "f" [] 3 4 [Node.stmt 4 []]])).codeLines
          ∧ pyStrip ((["import a", "", "def f():", "    return 1"] : List String).getD 3 "") ≠ "")
          ∧ pyStrip ((["import a", "", "def f():", "    return 1"] : List String).getD 3 "") = ""))) :=
  have h : ∀ j ∈ claimedLines (Node.module [Node.importNode 1 ["a"],
      Node.functionDef "f" [] 3 4 [Node.stmt 4 []]]),
      pyStrip ((["import a", "", "def f():", "    return 1"] : List String).getD j "") ≠ "" := by
    simp only [claimedLines, walk, walkAux, Node.children, List.append_nil, List.nil_append,
      List.cons_append, List.singleton_append]
    decide
  ⟨h, by decide,
    claim1_line_partition (fun _ => Except.error "E")
      ["import a", "", "def f():", "    return 1"]
      (Node.module [Node.importNode 1 ["a"], Node.functionDef "f" [] 3 4 [Node.stmt 4 []]])
      h 3 (by decide)⟩

/-- Claim C9: the loose collection is exactly the remaining members of the
line universe that do not strip to empty (blank remains are dropped), each
yielding one loose segment carrying its stripped text, and the remaining
universe is strictly ascending, so loose segments are emitted in ascending
line-index order. -/
theorem claim9_loose_lines_ascending_nonblank (client : Explainer)
    (lines : List String) (tree : Node) :
    ((extract_script_info client (Except.ok (lines, tree))).2.2.2 =
        ((finalSt client lines tree).codeLines.filter
            (fun i => pyStrip (lines.getD i "") ≠ "")).map
          (fun i => ⟨pyStrip (lines.getD i ""),
            generate_detailed_explanation client (pyStrip (lines.getD i ""))⟩))
    ∧ List.Pairwise (· < ·) ((finalSt client lines tree).codeLines) := by
  constructor
  · simp [extract_script_info, looseOf_eq]
  · rw [finalSt_eq]
    simp only [removeAll]
    exact List.Pairwise.filter _ (List.pairwise_lt_range _)

/-- A collaborator that always fails with the description `msg`. -/
def failingClient (msg : String) : Explainer := fun _ => Except.error msg

theorem placeholder_ne_empty (msg : String) :
    "Unable to generate explanation. Error: " ++ msg ≠ "" := by
  intro h
  have hl := congrArg String.length h
  rw [String.length_append] at hl
  have hpos : 0 < ("Unable to generate explanation. Error: " : String).length := by decide
  have hz : ("" : String).length = 0 := rfl
  omega

/-- Claim C8: every Function, Class and Loose segment's explanation is the
result of exactly one `generate_detailed_explanation` call on that segment's
own code text (imports get none); and under a collaborator that always fails
with description `msg`, every such segment's explanation is the non-empty
placeholder embedding `msg`, while extraction still completes and returns all
segments. -/
theorem claim8_one_request_each_and_failure_placeholder (client : Explainer)
    (lines : List String) (tree : Node) (msg : String) :
    (∀ f ∈ (extract_script_info client (Except.ok (lines, tree))).2.1,
        f.explanation = generate_detailed_explanation client f.code)
    ∧ (∀ c ∈ (extract_script_info client (Except.ok (lines, tree))).2.2.1,
        c.explanation = generate_detailed_explanation client c.code)
    ∧ (∀ o ∈ (extract_script_info client (Except.ok (lines, tree))).2.2.2,
        o.explanation = generate_detailed_explanation client o.code)
    ∧ (∀ f ∈ (extract_script_info (failingClient msg) (Except.ok (lines, tree))).2.1,
        f.explanation = "Unable to generate explanation. Error: " ++ msg ∧ f.explanation ≠ "")
    ∧ (∀ c ∈ (extract_script_info (failingClient msg) (Except.ok (lines, tree))).2.2.1,
        c.explanation = "Unable to generate explanation. Error: " ++ msg ∧ c.explanation ≠ "")
    ∧ (∀ o ∈ (extract_script_info (failingClient msg) (Except.ok (lines, tree))).2.2.2,
        o.explanation = "Unable to generate explanation. Error: " ++ msg ∧ o.explanation ≠ "") := by
  have hfun : ∀ (cl : Explainer), ∀ f ∈ (extract_script_info cl (Except.ok (lines, tree))).2.1,
      f.explanation = generate_detailed_explanation cl f.code := by
    intro cl f hf
    simp only [extract_script_info, finalSt_eq] at hf
    rcases List.mem_filterMap.mp hf with ⟨n, _, hfn⟩
    cases n <;> simp only [funcInfoOf, Option.some.injEq, reduceCtorEq] at hfn
    rw [← hfn]
  have hcls : ∀ (cl : Explainer), ∀ c ∈ (extract_script_info cl (Except.ok (lines, tree))).2.2.1,
      c.explanation = generate_detailed_explanation cl c.code := by
    intro cl c hc
    simp only [extract_script_info, finalSt_eq] at hc
    rcases List.mem_filterMap.mp hc with ⟨n, _, hcn⟩
    cases n <;> simp only [classInfoOf, Option.some.injEq, reduceCtorEq] at hcn
    rw [← hcn]
  have hloose : ∀ (cl : Explainer), ∀ o ∈ (extract_script_info cl (Except.ok (lines, tree))).2.2.2,
      o.explanation = generate_detailed_explanation cl o.code := by
    intro cl o ho
    simp only [extract_script_info, looseOf_eq] at ho
    rcases List.mem_map.mp ho with ⟨i, _, hoi⟩
    rw [← hoi]
  refine ⟨hfun client, hcls client, hloose client, fun f hf => ?_, fun c hc => ?_,
    fun o ho => ?_⟩
  · have h1 : f.explanation = "Unable to generate explanation. Error: " ++ msg :=
      (hfun (failingClient msg) f hf).trans rfl
    exact ⟨h1, h1 ▸ placeholder_ne_empty msg⟩
  · have h1 : c.explanation = "Unable to generate explanation. Error: " ++ msg :=
      (hcls (failingClient msg) c hc).trans rfl
    exact ⟨h1, h1 ▸ placeholder_ne_empty msg⟩
  · have h1 : o.explanation = "Unable to generate explanation. Error: " ++ msg :=
      (hloose (failingClient msg) o ho).trans rfl
    exact ⟨h1, h1 ▸ placeholder_ne_empty msg⟩

/-- A seven-line sample file with one import, one loose statement, one
function and one class with one method, used to exercise claim C8. -/
def sampleLines : List String :=
  ["import os", "x = 1", "def f():", "    pass", "class C:", "    def m(self):",
   "        pass"]

/-- The parse tree of `sampleLines`. -/
def sampleTree : Node :=
  Node.module
    [Node.importNode 1 ["os"], Node.stmt 2 [],
     Node.functionDef "f" [] 3 4 [Node.stmt 4 []],
     Node.classDef "C" 5 7 [Node.functionDef "m" ["self"] 6 7 [Node.stmt 7 []]]]

/-- Witness for C8: under the always-failing collaborator with description
`boom`, the sample file's function, class and loose segments each carry the
non-empty placeholder explanation embedding `boom`. -/
theorem claim8_witness :
    (((⟨"f", [], "def f():    pass",
          "Unable to generate explanation. Error: boom"⟩ : FuncInfo)
        ∈ (extract_script_info (failingClient "boom")
            (Except.ok (sampleLines, sampleTree))).2.1)
      ∧ ((⟨"f", [], "def f():    pass",
          "Unable to generate explanation. Error: boom"⟩ : FuncInfo).explanation
          = "Unable to generate explanation. Error: " ++ "boom"
        ∧ (⟨"f", [], "def f():    pass",
          "Unable to generate explanation. Error: boom"⟩ : FuncInfo).explanation ≠ ""))
    ∧ (((⟨"C", ["m"], "class C:    def m(self):        pass",
          "Unable to generate explanation. Error: boom"⟩ : ClassInfo)
        ∈ (extract_script_info (failingClient "boom")
            (Except.ok (sampleLines, sampleTree))).2.2.1)
      ∧ ((⟨"C", ["m"], "class C:    def m(self):        pass",
          "Unable to generate explanation. Error: boom"⟩ : ClassInfo).explanation
          = "Unable to generate explanation. Error: " ++ "boom"
        ∧ (⟨"C", ["m"], "class C:    def m(self):        pass",
          "Unable to generate explanation. Error: boom"⟩ : ClassInfo).explanation ≠ ""))
    ∧ (((⟨"x = 1", "Unable to generate explanation. Error: boom"⟩ : LooseInfo)
        ∈ (extract_script_info (failingClient "boom")
            (Except.ok (sampleLines, sampleTree))).2.2.2)
      ∧ ((⟨"x = 1",
          "Unable to generate explanation. Error: boom"⟩ : LooseInfo).explanation
          = "Unable to generate explanation. Error: " ++ "boom"
        ∧ (⟨"x = 1",
          "Unable to generate explanation. Error: boom"⟩ : LooseInfo).explanation ≠ "")) :=
  have hf : (⟨"f", [], "def f():    pass",
      "Unable to generate explanation. Error: boom"⟩ : FuncInfo)
      ∈ (extract_script_info (failingClient "boom")
          (Except.ok (sampleLines, sampleTree))).2.1 := by
    simp only [sampleLines, sampleTree, extract_script_info, finalSt_eq, claimedLines,
      walk, walkAux, Node.children, List.append_nil, List.nil_append, List.cons_append,
      List.singleton_append]
    decide
  have hc : (⟨"C", ["m"], "class C:    def m(self):        pass",
      "Unable to generate explanation. Error: boom"⟩ : ClassInfo)
      ∈ (extract_script_info (failingClient "boom")
          (Except.ok (sampleLines, sampleTree))).2.2.1 := by
    simp only [sampleLines, sampleTree, extract_script_info, finalSt_eq, claimedLines,
      walk, walkAux, Node.children, List.append_nil, List.nil_append, List.cons_append,
      List.singleton_append]
    decide
  have ho : (⟨"x = 1", "Unable to generate explanation. Error: boom"⟩ : LooseInfo)
      ∈ (extract_script_info (failingClient "boom")
          (Except.ok (sampleLines, sampleTree))).2.2.2 := by
    simp only [sampleLines, sampleTree, extract_script_info, finalSt_eq, claimedLines,
      walk, walkAux, Node.children, List.append_nil, List.nil_append, List.cons_append,
      List.singleton_append]
    decide
  ⟨⟨hf, (claim8_one_request_each_and_failure_placeholder (failingClient "boom")
      sampleLines sampleTree "boom").2.2.2.1 _ hf⟩,
   ⟨hc, (claim8_one_request_each_and_failure_placeholder (failingClient "boom")
      sampleLines sampleTree "boom").2.2.2.2.1 _ hc⟩,
   ⟨ho, (claim8_one_request_each_and_failure_placeholder (failingClient "boom")
      sampleLines sampleTree "boom").2.2.2.2.2 _ ho⟩⟩

/-- Claim C10: an async function definition is not extracted: processing the
node leaves the whole traversal state (including the line universe)
unchanged, a module holding only an async def yields no Function segment and
a full line universe, and the async def's non-blank header line resurfaces as
a loose segment. -/
theorem claim10_async_def_not_extracted (client : Explainer) (lines : List String)
    (nm : String) (args : List String) (s e t : Nat)
    (hsn : s - 1 < lines.length)
    (hnb : pyStrip (lines.getD (s - 1) "") ≠ "") :
    (∀ st : ExtractSt,
        processNode client lines st (Node.asyncFunctionDef nm args s e [Node.stmt t []]) = st)
    ∧ ((extract_script_info client (Except.ok (lines,
          Node.module [Node.asyncFunctionDef nm args s e [Node.stmt t []]]))).2.1 = [])
    ∧ ((finalSt client lines
          (Node.module [Node.asyncFunctionDef nm args s e [Node.stmt t []]])).codeLines
        = List.range lines.length)
    ∧ (pyStrip (lines.getD (s - 1) "") ∈
        ((extract_script_info client (Except.ok (lines,
          Node.module [Node.asyncFunctionDef nm args s e [Node.stmt t []]]))).2.2.2.map
          LooseInfo.code)) := by
  have hcodeLines : (finalSt client lines
      (Node.module [Node.asyncFunctionDef nm args s e [Node.stmt t []]])).codeLines
      = List.range lines.length := by
    rw [finalSt_eq]
    simp [claimedLines, walk, walkAux, Node.children, claimOf, removeAll_nil]
  refine ⟨fun st => rfl, ?_, hcodeLines, ?_⟩
  · simp [extract_script_info, finalSt_eq, walk, walkAux, Node.children, funcInfoOf]
  · simp only [extract_script_info, looseOf_eq, hcodeLines, List.map_map]
    rw [List.mem_map]
    refine ⟨s - 1, ?_, rfl⟩
    rw [List.mem_filter]
    exact ⟨List.mem_range.mpr hsn, by simpa using hnb⟩

/-- Witness for C10 on the two-line file `async def f(): / await g()`: the
header index 0 is in range and non-blank, no Function segment is produced,
the line universe stays full, and the stripped header appears among the
loose segment code texts. -/
theorem claim10_witness :
    ((1 - 1 < (["async def f():", "    await g()"] : List String).length)
      ∧ pyStrip ((["async def f():", "    await g()"] : List String).getD (1 - 1) "") ≠ "")
    ∧ ((∀ st : ExtractSt,
        processNode (fun _ => Except.error "E") ["async def f():", "    await g()"] st
          (Node.asyncFunctionDef "f" [] 1 2 [Node.stmt 2 []]) = st)
    ∧ ((extract_script_info (fun _ => Except.error "E") (Except.ok (["async def f():", "    await g()"],
          Node.module [Node.asyncFunctionDef "f" [] 1 2 [Node.stmt 2 []]]))).2.1 = [])
    ∧ ((finalSt (fun _ => Except.error "E") ["async def f():", "    await g()"]
          (Node.module [Node.asyncFunctionDef "f" [] 1 2 [Node.stmt 2 []]])).codeLines
        = List.range (["async def f():", "    await g()"] : List String).length)
    ∧ (pyStrip ((["async def f():", "    await g()"] : List String).getD (1 - 1) "") ∈
        ((extract_script_info (fun _ => Except.error "E") (Except.ok (["async def f():", "    await g()"],
          Node.module [Node.asyncFunctionDef "f" [] 1 2 [Node.stmt 2 []]]))).2.2.2.map
          LooseInfo.code))) :=
  ⟨⟨by decide, by decide⟩,
    claim10_async_def_not_extracted (fun _ => Except.error "E")
      ["async def f():", "    await g()"] "f" [] 1 2 2 (by decide) (by decide)⟩

/-- Sanity check: full extraction of a four-line file with one import, one
blank line and one two-line function, under a failing collaborator. -/
theorem extract_four_line_file_sanity :
    extract_script_info (fun _ => Except.error "E")
      (Except.ok (["import a", "", "def f():", "    return 1"],
        Node.module [Node.importNode 1 ["a"],
          Node.functionDef "f" [] 3 4 [Node.stmt 4 []]])) =
      ([some "a"],
       [⟨"f", [], "def f():    return 1", "Unable to generate explanation. Error: E"⟩],
       [],
       [⟨"return 1", "Unable to generate explanation. Error: E"⟩]) := by
  simp only [extract_script_info, finalSt_eq, claimedLines, walk, walkAux, Node.children,
    List.append_nil, List.nil_append]
  decide
